import Mathlib

/-!
Shallow embedding of the rlox tree-walking interpreter
(src/parser.rs, src/environment.rs, src/interpreter.rs).

Modelling conventions:
* Rust `Vec<T>` becomes `List T`; `Box<T>` becomes `T`.
* `Vec<u8>` lexemes (always produced from valid UTF-8 and converted back
  with `String::from_utf8(..).expect("valid string")`) are modelled as
  `String` directly, so that conversion never fails in the model.
* `f64` literals are modelled as `Rat`; the claims under study never
  depend on IEEE-754 rounding, NaN or formatting, only on which value
  constructors flow where, so the numeric carrier is irrelevant as long
  as it has decidable equality and the arithmetic operations.
* `HashMap<String, Value>` is modelled as an association list with
  unique keys: lookup takes the first hit and insert overwrites in place.
* Rust's pervasive `.clone()` on `Environment` / `RefCell<Environment>`
  means every environment handed around is an independent deep copy, so
  plain value semantics in Lean is an exact model: there is no hidden
  aliasing to account for.
* A Rust panic (`expect`, out-of-bounds index) is a distinguished
  `panicked` outcome, separate from the `Result::Err` channel.
* Unbounded recursion (loops in the parser, `while` statements and
  function calls in the interpreter) is driven by an explicit fuel
  parameter; running out of fuel is the distinguished outcome `fuelOut`,
  never confused with a genuine result of the program.

The types `TokenType`, `Token`, `Literal` (from the scanner) and
`RloxError` (from error.rs) are not in the excerpted sources; their
shapes are taken from the spec's token contract and from every use in
the three source files, which determine them completely.
-/

/-- Token kinds, as used by parser.rs (scanner.rs is external; the set of
constructors is the one the parser matches on, per the spec's token
contract). -/
inductive TokenType where
  | LeftParen | RightParen | LeftBrace | RightBrace
  | Comma | Dot | Minus | Plus | Semicolon | Slash | Star
  | Bang | BangEqual | Equal | EqualEqual
  | Greater | GreaterEqual | Less | LessEqual
  | Identifier | String | Number
  | And | Class | Else | False | Fun | For | If | Nil | Or
  | Print | Return | Super | This | True | Var | While
  | Eof
deriving DecidableEq, Repr

/-- Literal payload carried by a token / a literal expression node. -/
inductive Literal where
  | Identifier (s : String)
  | Str (s : String)
  | Number (n : Rat)
  | True
  | False
  | Nil
deriving DecidableEq, Repr

/-- A scanner token: `{ token_type, lexeme, literal, line }`. -/
structure Token where
  token_type : TokenType
  lexeme : String
  literal : Option Literal
  line : Nat
deriving DecidableEq, Repr

/-- Expression nodes (expr.rs enum `Expr`; each Rust payload struct's
fields appear directly on the constructor). -/
inductive Expr where
  | Binary (left : Expr) (operator : Token) (right : Expr)
  | Grouping (expression : Expr)
  | Literal (value : Option Literal)
  | Unary (operator : Token) (right : Expr)
  | Variable (name : Token)
  | Assign (name : Token) (value : Expr)
  | Logical (left : Expr) (operator : Token) (right : Expr)
  | Call (callee : Expr) (paren : Token) (arguments : List Expr)

/-- Statement nodes (stmt.rs enum `Stmt`). -/
inductive Stmt where
  | Expression (expression : Expr)
  | Print (expression : Expr)
  | Var (name : Token) (initializer : Option Expr)
  | Block (statements : List Stmt)
  | If (condition : Expr) (then_branch : Stmt) (else_branch : Option Stmt)
  | While (condition : Expr) (body : Stmt)
  | Function (name : Token) (params : List Token) (body : List Stmt)

/-- Error taxonomy (error.rs is external to the excerpt; the three
constructors and their fields are exactly the ones constructed and
matched in the three source files). -/
inductive RloxError where
  | ParseError (token : Token) (current : Nat) (message : String)
  | RuntimeError (lexeme : String) (message : String)
  | InterpreterError
deriving DecidableEq, Repr

/-- A user function value. In interpreter.rs the closure value is built
by `RloxFunction::new(stmt.clone())` from the `FunctionStmt` alone, so
the value can only carry the declaration data: name, parameters, body.
No environment flows into the constructor. -/
structure RloxFunction where
  name : Token
  params : List Token
  body : List Stmt

/-- Runtime values (interpreter.rs enum `Value`). `Native` carries no
data, matching `RloxNative {}`. -/
inductive Value where
  | Str (s : String)
  | Number (n : Rat)
  | Bool (b : Bool)
  | Func (f : RloxFunction)
  | Native
  | Nil

/-- Scope record: `enclosing: Option<Box<RefCell<Environment>>>` plus a
name-to-value map (environment.rs struct `Environment`). -/
inductive Environment where
  | mk (enclosing : Option Environment) (values : List (String × Value))

namespace Environment

def enclosing : Environment → Option Environment
  | .mk e _ => e

def values : Environment → List (String × Value)
  | .mk _ v => v

/-- Model of `HashMap::get`: first (unique) binding of the key, if any. -/
def hmGet (m : List (String × Value)) (k : String) : Option Value :=
  match m with
  | [] => none
  | (k2, v) :: rest => if k2 = k then some v else hmGet rest k

/-- Model of `HashMap::insert`: overwrite the key's binding in place, or append. -/
def hmInsert (m : List (String × Value)) (k : String) (v : Value) :
    List (String × Value) :=
  match m with
  | [] => [(k, v)]
  | (k2, v2) :: rest =>
      if k2 = k then (k, v) :: rest else (k2, v2) :: hmInsert rest k v

def default : Environment := .mk none []

/-- Rust `Environment::new(enclosing)`. -/
def new (enclosing : Environment) : Environment := .mk (some enclosing) []

/-- Rust `Environment::define`: insert/overwrite in the current scope only. -/
def define (env : Environment) (name : String) (value : Value) : Environment :=
  .mk env.enclosing (hmInsert env.values name value)

/-- Rust `Environment::get`: look up in the current scope, else recurse into
the enclosing scope; error at the root. -/
def get : Environment → Token → Except RloxError Value
  | .mk enc vals, token =>
    match hmGet vals token.lexeme with
    | some val => .ok val
    | none =>
      match enc with
      | some enclosing => enclosing.get token
      | none => .error (.RuntimeError token.lexeme
          ("Undefined variable " ++ token.lexeme ++ "."))

/-- Rust `Environment::assign`: rebind in the current scope if it holds the
key, else recurse into the enclosing scope (which is owned, so the
mutation is visible in the returned chain); error at the root. -/
def assign : Environment → Token → Value → Except RloxError Environment
  | .mk enc vals, token, value =>
    if (hmGet vals token.lexeme).isSome then
      .ok (define (.mk enc vals) token.lexeme value)
    else
      match enc with
      | some enclosing =>
        match enclosing.assign token value with
        | .ok enclosing2 => .ok (.mk (some enclosing2) vals)
        | .error e => .error e
      | none => .error (.RuntimeError token.lexeme
          ("Undefined variable " ++ "'" ++ token.lexeme ++ "'" ++ "."))

end Environment

/-! ## Interpreter (interpreter.rs) -/

/-- Mutable interpreter state: the two `RefCell<Environment>` fields of
`struct Interpreter` plus the lines printed so far (`println!` output).
`globals` is written only at construction and never touched afterwards
by the excerpted code. -/
structure InterpState where
  globals : Environment
  environment : Environment
  output : List String

/-- Outcome of running a piece of interpreter code: a value plus the
state left behind, an `Err` plus the state left behind (a Rust `Err`
return does not roll back `&mut self`), a process abort (panic), or
fuel exhaustion of the model. -/
inductive IRes (α : Type) where
  | ok (a : α) (s : InterpState)
  | err (e : RloxError) (s : InterpState)
  | panicked (msg : String)
  | fuelOut

/-- State-threading monad for the interpreter embedding. -/
def IM (α : Type) := InterpState → IRes α

instance : Monad IM where
  pure a := fun s => .ok a s
  bind x f := fun s =>
    match x s with
    | .ok a s2 => f a s2
    | .err e s2 => .err e s2
    | .panicked msg => .panicked msg
    | .fuelOut => .fuelOut

def getEnv : IM Environment := fun s => .ok s.environment s

def setEnv (env : Environment) : IM Unit :=
  fun s => .ok () { s with environment := env }

def getGlobals : IM Environment := fun s => .ok s.globals s

def emit (line : String) : IM Unit :=
  fun s => .ok () { s with output := s.output ++ [line] }

def throwRlox {α : Type} (e : RloxError) : IM α := fun s => .err e s

def panicWith {α : Type} (msg : String) : IM α := fun _ => .panicked msg

def liftE {α : Type} (x : Except RloxError α) : IM α :=
  fun s =>
    match x with
    | .ok a => .ok a s
    | .error e => .err e s

/-- Rust `Interpreter::is_truthy`: anything except `Nil` and `false` is true. -/
def is_truthy (right : Value) : Bool :=
  match right with
  | .Bool false | .Nil => false
  | _ => true

/-- Rust `Interpreter::is_equal`: per-kind comparison; mismatched kinds are
`false`, never an error. -/
def is_equal (left right : Value) : Except RloxError Value :=
  match left, right with
  | .Str l, .Str r => .ok (.Bool (decide (l = r)))
  | .Number l, .Number r => .ok (.Bool (decide (l = r)))
  | .Bool l, .Bool r => .ok (.Bool (decide (l = r)))
  | .Nil, .Nil => .ok (.Bool true)
  | _, _ => .ok (.Bool false)

/-- Decimal rendering of a number (`f64::to_string` abstracted over the
`Rat` carrier; no claim depends on the exact digits). -/
def numberToString (n : Rat) : String :=
  toString n.num ++ (if n.den = 1 then "" else "/" ++ toString n.den)

/-- Rust `Interpreter::stringify`. -/
def stringify (value : Value) : String :=
  match value with
  | .Str s => s
  | .Number n => numberToString n
  | .Bool b => toString b
  | .Nil => "nil"
  | .Func _ => "<func>"
  | .Native => "<native>"

/-- The body of `visit_binary_expr` after both operands have been
evaluated: the `match (left, right)` dispatch of interpreter.rs lines
28-51, with the arms in source order.  Note that the `(Str, Str)` arm
precedes the catch-all, so equality operators on two strings fall into
its `_ => Err(InterpreterError)` default, and that the `BangEqual` arms
return the same (un-negated) comparison as `EqualEqual`. -/
def visit_binary_values (operator : Token) (left right : Value) :
    Except RloxError Value :=
  match left, right with
  | .Number l, .Number r =>
    match operator.token_type with
    | .Minus => .ok (.Number (l - r))
    | .Slash => .ok (.Number (l / r))
    | .Star => .ok (.Number (l * r))
    | .Plus => .ok (.Number (l + r))
    | .Greater => .ok (.Bool (decide (l > r)))
    | .GreaterEqual => .ok (.Bool (decide (l ≥ r)))
    | .Less => .ok (.Bool (decide (l < r)))
    | .LessEqual => .ok (.Bool (decide (l ≤ r)))
    | .EqualEqual => .ok (.Bool (decide (l = r)))
    | .BangEqual => .ok (.Bool (decide (l = r)))
    | _ => .error .InterpreterError
  | .Str l, .Str r =>
    match operator.token_type with
    | .Plus => .ok (.Str (l ++ r))
    | _ => .error .InterpreterError
  | left, right =>
    match operator.token_type with
    | .EqualEqual => is_equal left right
    | .BangEqual => is_equal left right
    | _ => .error .InterpreterError

/-- The `Literal -> Value` mapping inside `visit_literal_expr`. -/
def literalValue : Literal → Value
  | .Identifier i => .Str i
  | .Str s => .Str s
  | .Number n => .Number n
  | .True => .Bool true
  | .False => .Bool false
  | .Nil => .Nil

/-- Panic-or-result outcome for an isolated (stateless) piece of code. -/
inductive PanicOr (α : Type) where
  | panicked (msg : String)
  | ok (a : α)

/-- Rust `visit_literal_expr`: `expr.value.clone().expect("Valid literal
expression")` panics when the payload is absent; a present payload is
mapped 1:1 to a `Value` and returned through `Ok`. -/
def visit_literal_expr (value : Option Literal) :
    PanicOr (Except RloxError Value) :=
  match value with
  | none => .panicked "Valid literal expression"
  | some lit => .ok (.ok (literalValue lit))

/-- Modelled from the spec: `RloxFunction::arity` lives in callable.rs,
which is not among the excerpted sources; per the spec glossary, arity
is "the fixed number of parameters a callable requires". -/
def RloxFunction.arity (f : RloxFunction) : Nat := f.params.length

/-- Bind each parameter name to the matching evaluated argument. -/
def bindParams (env : Environment) : List Token → List Value → Environment
  | [], _ => env
  | _, [] => env
  | p :: ps, a :: as2 => bindParams (env.define p.lexeme a) ps as2

mutual

/-- Rust `Interpreter::evaluate` / `expr.accept(self)`: the `ExprVisitor`
dispatch of interpreter.rs, one case per `visit_*_expr` method. -/
def evaluate : Nat → Expr → IM Value
  | 0, _ => fun _ => .fuelOut
  | fuel+1, expr =>
    match expr with
    | .Binary left operator right => do
        let l ← evaluate fuel left
        let r ← evaluate fuel right
        liftE (visit_binary_values operator l r)
    | .Grouping e => evaluate fuel e
    | .Literal value =>
        match value with
        | none => panicWith "Valid literal expression"
        | some lit => pure (literalValue lit)
    | .Unary operator right => do
        let r ← evaluate fuel right
        match operator.token_type with
        | .Minus =>
          match r with
          | .Number n => pure (.Number (-n))
          | _ => throwRlox .InterpreterError
        | .Bang => pure (.Bool (!is_truthy r))
        | _ => throwRlox .InterpreterError
    | .Variable name => do
        let env ← getEnv
        liftE (env.get name)
    | .Assign name value => do
        let v ← evaluate fuel value
        let env ← getEnv
        match env.assign name v with
        | .ok env2 => do
            setEnv env2
            pure v
        | .error e => throwRlox e
    | .Logical left operator right => do
        let l ← evaluate fuel left
        if operator.token_type = .Or then
          if is_truthy l then pure l else evaluate fuel right
        else
          if !is_truthy l then pure l else evaluate fuel right
    | .Call callee _paren arguments => do
        let c ← evaluate fuel callee
        let args ← evalArguments fuel arguments
        match c with
        | .Func f =>
            if args.length = f.arity then rloxCall fuel f args
            else throwRlox .InterpreterError
        | _ => throwRlox .InterpreterError

/-- The argument-evaluation loop of `visit_call_expr` (left to right). -/
def evalArguments : Nat → List Expr → IM (List Value)
  | 0, _ => fun _ => .fuelOut
  | _+1, [] => pure []
  | fuel+1, e :: rest => do
      let v ← evaluate fuel e
      let vs ← evalArguments fuel rest
      pure (v :: vs)

/-- Modelled from the spec: `RloxFunction::call` lives in callable.rs,
which is not among the excerpted sources.  Per §4.3 the call creates a
new scope, binds each parameter to the corresponding argument, executes
the body as a block against that scope, and the result defaults to
`Nil`.  The spec asks for the new scope to enclose the function's
captured defining scope, but the `RloxFunction` value built in
interpreter.rs carries no environment at all, so the only scope the
call can reach is the interpreter's `globals` field; the model encloses
that.  No claim's verdict depends on this choice. -/
def rloxCall : Nat → RloxFunction → List Value → IM Value
  | 0, _, _ => fun _ => .fuelOut
  | fuel+1, f, args => do
      let g ← getGlobals
      execute_block fuel f.body (bindParams (Environment.new g) f.params args)
      pure .Nil

/-- Rust `Interpreter::execute` / `statement.accept(self)`: the `StmtVisitor`
dispatch, one case per `visit_*_stmt` method. -/
def execute : Nat → Stmt → IM Unit
  | 0, _ => fun _ => .fuelOut
  | fuel+1, stmt =>
    match stmt with
    | .Expression e => do
        let _ ← evaluate fuel e
        pure ()
    | .Print e => do
        let v ← evaluate fuel e
        emit (stringify v)
    | .Var _name init => do
        let value ← match init with
          | some e => evaluate fuel e
          | none => pure Value.Nil
        let env ← getEnv
        setEnv (env.define _name.lexeme value)
    | .Block statements => do
        let env ← getEnv
        execute_block fuel statements (Environment.new env)
    | .If condition then_branch else_branch => do
        let c ← evaluate fuel condition
        if is_truthy c then execute fuel then_branch
        else
          match else_branch with
          | some v => execute fuel v
          | none => pure ()
    | .While condition body => whileLoop fuel condition body
    | .Function name params body => do
        let env ← getEnv
        setEnv (env.define name.lexeme (.Func ⟨name, params, body⟩))

/-- The `while` loop of `visit_while_stmt`. -/
def whileLoop : Nat → Expr → Stmt → IM Unit
  | 0, _, _ => fun _ => .fuelOut
  | fuel+1, condition, body => do
      let c ← evaluate fuel condition
      if is_truthy c then do
        execute fuel body
        whileLoop fuel condition body
      else pure ()

/-- Rust `Interpreter::execute_block`.  The source replaces
`self.environment` with `new_env`, runs the statements (stopping at the
first error), and then performs
`std::mem::swap(&mut previous, &mut enclosing.borrow_mut().clone())`:
the swap's right operand is a fresh temporary clone of the (itself
cloned) enclosing scope, so the swap mutates only the local `previous`
and the temporary — `self.environment` is never written again and keeps
whatever environment the statements left current.  The model therefore
sets the environment to `new_env`, runs the statements, and restores
nothing. -/
def execute_block : Nat → List Stmt → Environment → IM Unit
  | 0, _, _ => fun _ => .fuelOut
  | fuel+1, statements, new_env => do
      setEnv new_env
      executeSeq fuel statements

/-- The statement loop shared by `execute_block` (break at the first
error, which the monad's `err` propagation models exactly). -/
def executeSeq : Nat → List Stmt → IM Unit
  | 0, _ => fun _ => .fuelOut
  | _+1, [] => pure ()
  | fuel+1, st :: rest => do
      execute fuel st
      executeSeq fuel rest

end

/-- Rust `Interpreter::new`: globals hold the native `clock`; the current
environment starts as a clone of globals. -/
def Interpreter.new : InterpState :=
  let globals := Environment.default.define "clock" Value.Native
  { globals := globals, environment := globals, output := [] }

/-- Rust `Interpreter::interpret`: execute the statements in order, stopping
at and propagating the first error. -/
def interpret (fuel : Nat) : List Stmt → IM Unit
  | [] => pure ()
  | st :: rest => do
      execute fuel st
      interpret fuel rest

/-! ## Parser (parser.rs) -/

/-- Rust `struct Parser`, with the token sequence and the cursor. -/
structure Parser where
  tokens : List Token
  current : Nat

/-- Outcome of a parser method: success or `Err` (each with the parser
state left behind — a Rust `Err` return does not roll back `&mut self`),
a panic (out-of-bounds `Vec` index), or fuel exhaustion of the model. -/
inductive PRes (α : Type) where
  | ok (a : α) (p : Parser)
  | err (e : RloxError) (p : Parser)
  | panicked
  | fuelOut

/-- State-threading monad for the parser embedding. -/
def PM (α : Type) := Parser → PRes α

instance : Monad PM where
  pure a := fun p => .ok a p
  bind x f := fun p =>
    match x p with
    | .ok a p2 => f a p2
    | .err e p2 => .err e p2
    | .panicked => .panicked
    | .fuelOut => .fuelOut

namespace Parser

def getCur : PM Nat := fun p => .ok p.current p

def throwP {α : Type} (e : RloxError) : PM α := fun p => .err e p

/-- Rust `self.peek()`: `self.tokens[self.current].clone()`; indexing out of
bounds panics. -/
def peek : PM Token := fun p =>
  match p.tokens.get? p.current with
  | some t => .ok t p
  | none => .panicked

/-- Rust `self.previous()`: `self.tokens[self.current - 1].clone()`; a zero
cursor underflows the index and panics, as does an out-of-range one. -/
def previous : PM Token := fun p =>
  if p.current = 0 then .panicked
  else
    match p.tokens.get? (p.current - 1) with
    | some t => .ok t p
    | none => .panicked

def is_end : PM Bool := do
  let t ← peek
  pure (t.token_type = .Eof)

def advance : PM Token := do
  let e ← is_end
  if !e then
    fun p => .ok () { p with current := p.current + 1 }
  else
    pure ()
  previous

/-- Rust `self.check(token)`.  The source first writes `self.is_end()`
followed by a bare `false;` whose value is discarded — a no-op kept here
only for its (possible) panic — and then compares the peeked token. -/
def check (token : TokenType) : PM Bool := do
  let _ ← is_end
  let t ← peek
  pure (t.token_type = token)

def match_token : List TokenType → PM Bool
  | [] => pure false
  | t :: rest => do
      let c ← check t
      if c then do
        let _ ← advance
        pure true
      else match_token rest

/-- Build the `ParseError` that carries `self.tokens[self.current]` and
the cursor, as `consume` and `primary` do. -/
def errAtCurrent (message : String) : PM RloxError := fun p =>
  match p.tokens.get? p.current with
  | some t => .ok (.ParseError t p.current message) p
  | none => .panicked

def consume (token : TokenType) (message : String) : PM Token := do
  let c ← check token
  if c then advance
  else do
    let e ← errAtCurrent message
    throwP e

/-- The `while` loop of `synchronize`. -/
def synchronize_loop : Nat → PM Unit
  | 0 => fun _ => .fuelOut
  | fuel+1 => do
      let e ← is_end
      if e then pure ()
      else do
        let prev ← previous
        if prev.token_type = .Semicolon then pure ()
        else do
          let t ← peek
          match t.token_type with
          | .Class | .Fun | .Var | .For | .If | .While | .Print | .Return =>
              pure ()
          | _ => do
              let _ ← advance
              synchronize_loop fuel

def synchronize (fuel : Nat) : PM Unit := do
  let _ ← advance
  synchronize_loop fuel

mutual

def expression : Nat → PM Expr
  | 0 => fun _ => .fuelOut
  | fuel+1 => assignment fuel

def assignment : Nat → PM Expr
  | 0 => fun _ => .fuelOut
  | fuel+1 => do
      let expr ← or fuel
      let m ← match_token [.Equal]
      if m then do
        let equals ← previous
        let value ← assignment fuel
        match expr with
        | .Variable vname => pure (.Assign vname value)
        | _ => do
            let cur ← getCur
            throwP (.ParseError equals cur "Invalid assignment target.")
      else pure expr

def or : Nat → PM Expr
  | 0 => fun _ => .fuelOut
  | fuel+1 => do
      let expr ← and fuel
      or_loop fuel expr

def or_loop : Nat → Expr → PM Expr
  | 0, _ => fun _ => .fuelOut
  | fuel+1, expr => do
      let m ← match_token [.Or]
      if m then do
        let operator ← previous
        let right ← and fuel
        or_loop fuel (.Logical expr operator right)
      else pure expr

def and : Nat → PM Expr
  | 0 => fun _ => .fuelOut
  | fuel+1 => do
      let expr ← equality fuel
      and_loop fuel expr

def and_loop : Nat → Expr → PM Expr
  | 0, _ => fun _ => .fuelOut
  | fuel+1, expr => do
      let m ← match_token [.And]
      if m then do
        let operator ← previous
        let right ← equality fuel
        and_loop fuel (.Logical expr operator right)
      else pure expr

def equality : Nat → PM Expr
  | 0 => fun _ => .fuelOut
  | fuel+1 => do
      let expr ← comparison fuel
      equality_loop fuel expr

def equality_loop : Nat → Expr → PM Expr
  | 0, _ => fun _ => .fuelOut
  | fuel+1, expr => do
      let m ← match_token [.BangEqual, .EqualEqual]
      if m then do
        let operator ← previous
        let right ← comparison fuel
        equality_loop fuel (.Binary expr operator right)
      else pure expr

def comparison : Nat → PM Expr
  | 0 => fun _ => .fuelOut
  | fuel+1 => do
      let expr ← term fuel
      comparison_loop fuel expr

def comparison_loop : Nat → Expr → PM Expr
  | 0, _ => fun _ => .fuelOut
  | fuel+1, expr => do
      let m ← match_token [.Greater, .GreaterEqual, .Less, .LessEqual]
      if m then do
        let operator ← previous
        let right ← term fuel
        comparison_loop fuel (.Binary expr operator right)
      else pure expr

def term : Nat → PM Expr
  | 0 => fun _ => .fuelOut
  | fuel+1 => do
      let expr ← factor fuel
      term_loop fuel expr

def term_loop : Nat → Expr → PM Expr
  | 0, _ => fun _ => .fuelOut
  | fuel+1, expr => do
      let m ← match_token [.Minus, .Plus]
      if m then do
        let operator ← previous
        let right ← factor fuel
        term_loop fuel (.Binary expr operator right)
      else pure expr

def factor : Nat → PM Expr
  | 0 => fun _ => .fuelOut
  | fuel+1 => do
      let expr ← unary fuel
      factor_loop fuel expr

def factor_loop : Nat → Expr → PM Expr
  | 0, _ => fun _ => .fuelOut
  | fuel+1, expr => do
      let m ← match_token [.Slash, .Star]
      if m then do
        let operator ← previous
        let right ← unary fuel
        factor_loop fuel (.Binary expr operator right)
      else pure expr

/-- Rust `Parser::unary`.  In the source the `if` branch builds
`Expr::Unary { operator, right }` as a bare expression statement — its
value is discarded (there is no `return`/`Ok`), and control falls
through to `self.call()` with the operator and operand tokens already
consumed. -/
def unary : Nat → PM Expr
  | 0 => fun _ => .fuelOut
  | fuel+1 => do
      let m ← match_token [.Bang, .Minus]
      if m then do
        let _operator ← previous
        let _right ← unary fuel
        pure ()
      else pure ()
      call fuel

def call : Nat → PM Expr
  | 0 => fun _ => .fuelOut
  | fuel+1 => do
      let expr ← primary fuel
      call_loop fuel expr

def call_loop : Nat → Expr → PM Expr
  | 0, _ => fun _ => .fuelOut
  | fuel+1, expr => do
      let m ← match_token [.LeftParen]
      if m then do
        let expr2 ← finish_call fuel expr
        call_loop fuel expr2
      else pure expr

def finish_call : Nat → Expr → PM Expr
  | 0, _ => fun _ => .fuelOut
  | fuel+1, callee => do
      let c ← check .RightParen
      let arguments ← if !c then arguments_loop fuel [] else pure []
      let paren ← consume .RightParen "Expected ')' after arguments"
      pure (.Call callee paren arguments)

/-- The argument `loop` of `finish_call`: at 255 accumulated arguments
the method returns `Err(ParseError ...)` at once, without consuming the
rest of the list. -/
def arguments_loop : Nat → List Expr → PM (List Expr)
  | 0, _ => fun _ => .fuelOut
  | fuel+1, arguments => do
      if arguments.length ≥ 255 then do
        let cur ← getCur
        let t ← peek
        throwP (.ParseError t cur "Can't have more than 255 arguments.")
      else do
        let e ← expression fuel
        let arguments2 := arguments ++ [e]
        let m ← match_token [.Comma]
        if m then arguments_loop fuel arguments2
        else pure arguments2

def primary : Nat → PM Expr
  | 0 => fun _ => .fuelOut
  | fuel+1 => do
      let mFalse ← match_token [.False]
      if mFalse then pure (.Literal (some .False)) else do
      let mTrue ← match_token [.True]
      if mTrue then pure (.Literal (some .True)) else do
      let mNil ← match_token [.Nil]
      if mNil then pure (.Literal (some .Nil)) else do
      let mNum ← match_token [.Number, .String]
      if mNum then do
        let prev ← previous
        pure (.Literal prev.literal)
      else do
      let mId ← match_token [.Identifier]
      if mId then do
        let prev ← previous
        pure (.Variable prev)
      else do
      let mParen ← match_token [.LeftParen]
      if mParen then do
        let expr ← expression fuel
        let _ ← consume .RightParen "Expect ')' after expression."
        pure (.Grouping expr)
      else do
      let mId2 ← match_token [.Identifier]
      if mId2 then do
        let prev ← previous
        pure (.Literal prev.literal)
      else do
      let e ← errAtCurrent "failed to parse"
      throwP e

end

mutual

def declaration : Nat → PM Stmt
  | 0 => fun _ => .fuelOut
  | fuel+1 => fun p =>
      let res : PRes Stmt :=
        (do
          let mFun ← match_token [.Fun]
          if mFun then fun_declaration fuel "function" else do
          let mVar ← match_token [.Var]
          if mVar then var_declaration fuel else statement fuel) p
      -- `if res.is_err() { self.synchronize(); } res`
      match res with
      | .err e p2 =>
        match synchronize fuel p2 with
        | .ok _ p3 => .err e p3
        | .err _ p3 => .err e p3
        | .panicked => .panicked
        | .fuelOut => .fuelOut
      | other => other

def statement : Nat → PM Stmt
  | 0 => fun _ => .fuelOut
  | fuel+1 => do
      let mIf ← match_token [.If]
      if mIf then if_statement fuel else do
      let mFor ← match_token [.For]
      if mFor then for_statement fuel else do
      let mWhile ← match_token [.While]
      if mWhile then while_statement fuel else do
      let mPrint ← match_token [.Print]
      if mPrint then print_statement fuel else do
      let mBrace ← match_token [.LeftBrace]
      if mBrace then do
        let stmts ← block fuel
        pure (.Block stmts)
      else expression_statement fuel

def print_statement : Nat → PM Stmt
  | 0 => fun _ => .fuelOut
  | fuel+1 => do
      let value ← expression fuel
      let _ ← consume .Semicolon "Expect ';' after value."
      pure (.Print value)

def expression_statement : Nat → PM Stmt
  | 0 => fun _ => .fuelOut
  | fuel+1 => do
      let value ← expression fuel
      let _ ← consume .Semicolon "Expect ';' after expression."
      pure (.Expression value)

def var_declaration : Nat → PM Stmt
  | 0 => fun _ => .fuelOut
  | fuel+1 => do
      let name ← consume .Identifier "expect variable name"
      let m ← match_token [.Equal]
      let init ←
        if m then do
          let res ← expression fuel
          pure (some res)
        else pure none
      let _ ← consume .Semicolon "Expect ';' after value."
      pure (.Var name init)

/-- The statement-accumulating `while` loop of `block`. -/
def block_loop : Nat → List Stmt → PM (List Stmt)
  | 0, _ => fun _ => .fuelOut
  | fuel+1, stmts => do
      let c ← check .RightBrace
      let e ← is_end
      if !c && !e then do
        let s ← declaration fuel
        block_loop fuel (stmts ++ [s])
      else pure stmts

def block : Nat → PM (List Stmt)
  | 0 => fun _ => .fuelOut
  | fuel+1 => do
      let stmts ← block_loop fuel []
      let _ ← consume .RightBrace "Expect '\x7d' after block."
      pure stmts

def if_statement : Nat → PM Stmt
  | 0 => fun _ => .fuelOut
  | fuel+1 => do
      let _ ← consume .LeftParen "Expect '(' after block."
      let condition ← expression fuel
      let _ ← consume .RightParen "Expect ')' after block."
      let then_branch ← statement fuel
      let mElse ← match_token [.Else]
      let else_branch ←
        if mElse then do
          let inner ← statement fuel
          pure (some inner)
        else pure none
      pure (.If condition then_branch else_branch)

def while_statement : Nat → PM Stmt
  | 0 => fun _ => .fuelOut
  | fuel+1 => do
      let _ ← consume .LeftParen "Expect '(' after block."
      let condition ← expression fuel
      let _ ← consume .RightParen "Expect ')' after block."
      let body ← statement fuel
      pure (.While condition body)

/-- Rust `Parser::for_statement`: parse-time desugaring of `for` into
`while`.  Note the source's replacement for an absent condition is
`Literal::False`. -/
def for_statement : Nat → PM Stmt
  | 0 => fun _ => .fuelOut
  | fuel+1 => do
      let _ ← consume .LeftParen "Expect '(' after for."
      let mSemi ← match_token [.Semicolon]
      let initializer ←
        if mSemi then pure none
        else do
          let mVar ← match_token [.Var]
          if mVar then do
            let s ← var_declaration fuel
            pure (some s)
          else do
            let s ← expression_statement fuel
            pure (some s)
      let cSemi ← check .Semicolon
      let condition ←
        if !cSemi then do
          let e ← expression fuel
          pure (some e)
        else pure none
      let _ ← consume .Semicolon "Expect ';' after loop condition."
      let cParen ← check .RightParen
      let increment ←
        if !cParen then do
          let e ← expression fuel
          pure (some e)
        else pure none
      let _ ← consume .RightParen "Expect ')' after for clause."
      let body0 ← statement fuel
      let body1 :=
        match increment with
        | some inc => Stmt.Block [body0, Stmt.Expression inc]
        | none => body0
      -- `if condition.is_none() { condition = Some(Literal::False) }`;
      -- the following `.expect(..)` can then never fire
      let condition2 :=
        match condition with
        | none => Expr.Literal (some .False)
        | some c => c
      let body2 := Stmt.While condition2 body1
      let body3 :=
        match initializer with
        | some init => Stmt.Block [init, body2]
        | none => body2
      pure body3

/-- The parameter `loop` of `fun_declaration`: at 255 accumulated
parameters the method returns `Err(ParseError ...)` at once, without
consuming the rest of the list. -/
def params_loop : Nat → List Token → PM (List Token)
  | 0, _ => fun _ => .fuelOut
  | fuel+1, parameters => do
      if parameters.length ≥ 255 then do
        let cur ← getCur
        let t ← peek
        throwP (.ParseError t cur "Can't have more than 255 arguments.")
      else do
        let prm ← consume .Identifier "Expect parameter name."
        let parameters2 := parameters ++ [prm]
        let m ← match_token [.Comma]
        if m then params_loop fuel parameters2
        else pure parameters2

def fun_declaration : Nat → String → PM Stmt
  | 0, _ => fun _ => .fuelOut
  | fuel+1, kind => do
      let name ← consume .Identifier ("Expect " ++ kind ++ " name")
      let _ ← consume .LeftParen ("Expect '(' after " ++ kind ++ " name.")
      let cParen ← check .RightParen
      let parameters ← if !cParen then params_loop fuel [] else pure []
      let _ ← consume .RightParen "Expect ')' after parameters."
      let _ ← consume .LeftBrace ("Expect '\x7b' before " ++ kind ++ " body.")
      let body ← block fuel
      pure (.Function name parameters body)

end

/-- The statement-accumulating `while` loop of `parse`. -/
def parse_loop : Nat → List Stmt → PM (List Stmt)
  | 0, _ => fun _ => .fuelOut
  | fuel+1, stmts => do
      let e ← is_end
      if e then pure stmts
      else do
        let s ← declaration fuel
        parse_loop fuel (stmts ++ [s])

/-- Rust `Parser::parse`. -/
def parse (fuel : Nat) : PM (List Stmt) := parse_loop fuel []

end Parser

/-! ## Spec-side characterisations (used to state claim C9) -/

/-- Spec-side description of `get`: the value bound in the innermost
scope of the chain that defines the identifier, if any. -/
def chainLookup : Environment → String → Option Value
  | .mk enc vals, name =>
    match Environment.hmGet vals name with
    | some v => some v
    | none =>
      match enc with
      | some e => chainLookup e name
      | none => none

/-- Whether some scope in the chain defines the name. -/
def chainDefines (env : Environment) (name : String) : Bool :=
  (chainLookup env name).isSome

/-- Spec-side description of a successful `assign`: rebind the name in
the first (innermost-outward) scope of the chain that already defines
it, leaving every other scope untouched. -/
def rebindFirst : Environment → String → Value → Environment
  | .mk enc vals, name, v =>
    if (Environment.hmGet vals name).isSome then
      .mk enc (Environment.hmInsert vals name v)
    else
      .mk (match enc with
           | some e => some (rebindFirst e name v)
           | none => none) vals

/-! ## Shared concrete inputs for the claim theorems -/

/-- A token with only a token type (lexeme/literal/line immaterial). -/
def tk (tt : TokenType) : Token := ⟨tt, "", none, 0⟩

/-- An identifier token named `a`. -/
def aTok : Token := ⟨.Identifier, "a", none, 0⟩

/-- A number token with literal payload 1. -/
def numTok1 : Token := ⟨.Number, "", some (.Number 1), 0⟩

/-- A `print` + shadowing program: `var a = 1; { var a = 2; } print a;`. -/
def c1_program : List Stmt :=
  [.Var aTok (some (.Literal (some (.Number 1)))),
   .Block [.Var aTok (some (.Literal (some (.Number 2))))],
   .Print (.Variable aTok)]

/-- The environment current just before the block of `c1_program` runs:
globals (holding `clock`) with `a` bound to 1. -/
def c1_outer_env : Environment := .mk none [("clock", .Native), ("a", .Number 1)]

/-- The single-statement program `clock();` — a call whose callee
evaluates to the pre-registered `Native` value. -/
def c4_program : List Stmt :=
  [.Expression (.Call (.Variable ⟨.Identifier, "clock", none, 0⟩) (tk .RightParen) [])]

/-- Token stream of `for (;;) print 1;` (condition slot absent). -/
def c5_tokens : List Token :=
  [tk .For, tk .LeftParen, tk .Semicolon, tk .Semicolon, tk .RightParen,
   tk .Print, numTok1, tk .Semicolon, tk .Eof]

/-- Token stream of the expression `!true`. -/
def c6_tokens : List Token := [tk .Bang, tk .True, tk .Eof]

/-- One `<number> ,` pair of an oversized argument list. -/
def pairTok : List Token := [numTok1, tk .Comma]

/-- The 256th argument, the closing delimiter and the rest of the stream. -/
def argTail : List Token := [numTok1, tk .RightParen, tk .Semicolon, tk .Eof]

/-- One `<identifier> ,` pair of an oversized parameter list. -/
def ppairTok : List Token := [aTok, tk .Comma]

/-- The 256th parameter, the closing delimiter and the function body. -/
def pTail : List Token := [aTok, tk .RightParen, tk .LeftBrace, tk .RightBrace, tk .Eof]

/-- A 256-argument call argument list: `1 , 1 , ... 1 ) ;`. -/
def c8_tokens : List Token := (List.replicate 255 pairTok).flatten ++ argTail

/-- A declaration `f ( a , a , ... a ) \x7b \x7d` with 256 parameters
(the token sequence after the `fun` keyword). -/
def c8p_tokens : List Token :=
  ⟨.Identifier, "f", none, 0⟩ :: tk .LeftParen ::
    ((List.replicate 255 ppairTok).flatten ++ pTail)

/-! ## Properties of the environment chain (used by claim C9) -/

theorem hmGet_hmInsert (m : List (String × Value)) (k n : String) (v : Value) :
    Environment.hmGet (Environment.hmInsert m k v) n =
      if k = n then some v else Environment.hmGet m n := by
  induction m with
  | nil => simp [Environment.hmInsert, Environment.hmGet]
  | cons p rest ih =>
      obtain ⟨k2, v2⟩ := p
      by_cases hk : k2 = k
      · subst hk
        by_cases hn : k2 = n
        · subst hn
          simp [Environment.hmInsert, Environment.hmGet]
        · simp [Environment.hmInsert, Environment.hmGet, hn]
      · by_cases hn : k2 = n
        · subst hn
          have hkn : ¬ (k = k2) := fun h => hk h.symm
          simp [Environment.hmInsert, Environment.hmGet, hk, hkn, ih]
        · simp [Environment.hmInsert, Environment.hmGet, hk, hn, ih]

theorem get_eq_chainLookup : ∀ (env : Environment) (tok : Token),
    env.get tok =
      (match chainLookup env tok.lexeme with
       | some w => Except.ok w
       | none => Except.error (.RuntimeError tok.lexeme
           ("Undefined variable " ++ tok.lexeme ++ ".")))
  | .mk enc vals, tok => by
      cases h : Environment.hmGet vals tok.lexeme with
      | some w => cases enc <;> simp [Environment.get, chainLookup, h]
      | none =>
        cases enc with
        | some e =>
            simpa [Environment.get, chainLookup, h] using get_eq_chainLookup e tok
        | none => simp [Environment.get, chainLookup, h]

theorem assign_eq_rebindFirst : ∀ (env : Environment) (tok : Token) (v : Value),
    env.assign tok v =
      (if chainDefines env tok.lexeme then
        Except.ok (rebindFirst env tok.lexeme v)
      else
        Except.error (.RuntimeError tok.lexeme
          ("Undefined variable " ++ "'" ++ tok.lexeme ++ "'" ++ ".")))
  | .mk enc vals, tok, v => by
      cases h : Environment.hmGet vals tok.lexeme with
      | some w =>
          cases enc <;>
            simp [Environment.assign, chainDefines, chainLookup, rebindFirst, h,
              Environment.define, Environment.enclosing, Environment.values]
      | none =>
        cases enc with
        | some e =>
            have ih := assign_eq_rebindFirst e tok v
            simp only [chainDefines] at ih ⊢
            by_cases hv : (chainLookup e tok.lexeme).isSome
            · simp [Environment.assign, chainLookup, rebindFirst, h, ih, hv]
            · simp [Environment.assign, chainLookup, rebindFirst, h, ih, hv]
        | none => simp [Environment.assign, chainDefines, chainLookup, h]

theorem chainDefines_rebindFirst : ∀ (env : Environment) (k n : String) (v : Value),
    chainDefines (rebindFirst env k v) n = chainDefines env n
  | .mk enc vals, k, n, v => by
      cases h : Environment.hmGet vals k with
      | some w =>
          by_cases hkn : k = n
          · subst hkn
            cases enc <;> simp [rebindFirst, chainDefines, chainLookup, h, hmGet_hmInsert]
          · cases enc <;>
              simp [rebindFirst, chainDefines, chainLookup, h, hmGet_hmInsert, hkn]
      | none =>
        cases enc with
        | some e =>
            have ih := chainDefines_rebindFirst e k n v
            cases hg : Environment.hmGet vals n with
            | some w2 => simp [rebindFirst, chainDefines, chainLookup, h, hg]
            | none => simpa [rebindFirst, chainDefines, chainLookup, h, hg] using ih
        | none => simp [rebindFirst, chainDefines, chainLookup, h]

/-! ## Applied-form lemmas for the parser monad and primitive operations -/

theorem PM_bind_app {α β : Type} (x : PM α) (f : α → PM β) (p : Parser) :
    (x >>= f) p =
      (match x p with
       | .ok a p2 => f a p2
       | .err e p2 => .err e p2
       | .panicked => .panicked
       | .fuelOut => .fuelOut) := rfl

theorem PM_pure_app {α : Type} (a : α) (p : Parser) : (pure a : PM α) p = .ok a p := rfl

theorem PM_ite_app {α : Type} (c : Prop) [Decidable c] (x y : PM α) (p : Parser) :
    (if c then x else y) p = if c then x p else y p := by
  split <;> rfl

theorem peek_at {tokens : List Token} {c : Nat} {t : Token}
    (h : tokens[c]? = some t) : Parser.peek ⟨tokens, c⟩ = .ok t ⟨tokens, c⟩ := by
  simp [Parser.peek, h]

theorem is_end_at {tokens : List Token} {c : Nat} {t : Token}
    (h : tokens[c]? = some t) :
    Parser.is_end ⟨tokens, c⟩ = .ok (decide (t.token_type = .Eof)) ⟨tokens, c⟩ := by
  simp [Parser.is_end, PM_bind_app, peek_at h, PM_pure_app]

theorem check_at {tokens : List Token} {c : Nat} {t : Token} (tt : TokenType)
    (h : tokens[c]? = some t) :
    Parser.check tt ⟨tokens, c⟩ = .ok (decide (t.token_type = tt)) ⟨tokens, c⟩ := by
  simp [Parser.check, PM_bind_app, is_end_at h, peek_at h, PM_pure_app]

theorem advance_at {tokens : List Token} {c : Nat} {t : Token}
    (h : tokens[c]? = some t) (hne : t.token_type ≠ .Eof) :
    Parser.advance ⟨tokens, c⟩ = .ok t ⟨tokens, c + 1⟩ := by
  simp [Parser.advance, PM_bind_app, is_end_at h, hne, PM_ite_app, PM_pure_app,
    Parser.previous, h]

theorem match_token_nil (p : Parser) : Parser.match_token [] p = .ok false p := rfl

theorem match_token_hit {tokens : List Token} {c : Nat} {t : Token} (tt : TokenType)
    (rest : List TokenType) (h : tokens[c]? = some t)
    (htt : t.token_type = tt) (hne : tt ≠ .Eof) :
    Parser.match_token (tt :: rest) ⟨tokens, c⟩ = .ok true ⟨tokens, c + 1⟩ := by
  have hne2 : t.token_type ≠ .Eof := htt ▸ hne
  simp [Parser.match_token, PM_bind_app, check_at tt h, htt, PM_ite_app,
    advance_at h hne2, PM_pure_app]

theorem match_token_miss {tokens : List Token} {c : Nat} {t : Token} (tt : TokenType)
    (rest : List TokenType) (h : tokens[c]? = some t)
    (htt : t.token_type ≠ tt) :
    Parser.match_token (tt :: rest) ⟨tokens, c⟩ = Parser.match_token rest ⟨tokens, c⟩ := by
  simp [Parser.match_token, PM_bind_app, check_at tt h, htt, PM_ite_app, PM_pure_app]

theorem consume_hit {tokens : List Token} {c : Nat} {t : Token} (tt : TokenType)
    (msg : String) (h : tokens[c]? = some t)
    (htt : t.token_type = tt) (hne : tt ≠ .Eof) :
    Parser.consume tt msg ⟨tokens, c⟩ = .ok t ⟨tokens, c + 1⟩ := by
  have hne2 : t.token_type ≠ .Eof := htt ▸ hne
  simp [Parser.consume, PM_bind_app, check_at tt h, htt, PM_ite_app,
    advance_at h hne2, PM_pure_app]

theorem arguments_loop_cap {tokens : List Token} {c : Nat} {t : Token}
    (fuel : Nat) (args : List Expr) (h : args.length ≥ 255)
    (ht : tokens[c]? = some t) :
    Parser.arguments_loop (fuel+1) args ⟨tokens, c⟩ =
      .err (.ParseError t c "Can't have more than 255 arguments.") ⟨tokens, c⟩ := by
  rw [Parser.arguments_loop.eq_2]
  simp [h, PM_bind_app, Parser.getCur, peek_at ht, Parser.throwP]

theorem params_loop_cap {tokens : List Token} {c : Nat} {t : Token}
    (fuel : Nat) (params : List Token) (h : params.length ≥ 255)
    (ht : tokens[c]? = some t) :
    Parser.params_loop (fuel+1) params ⟨tokens, c⟩ =
      .err (.ParseError t c "Can't have more than 255 arguments.") ⟨tokens, c⟩ := by
  rw [Parser.params_loop.eq_2]
  simp [h, PM_bind_app, Parser.getCur, peek_at ht, Parser.throwP]

/-! ## Fuel-numeral shifts (all definitional) -/

theorem sh2 (n : Nat) : n + 2 = (n + 1) + 1 := rfl
theorem sh3 (n : Nat) : n + 3 = (n + 2) + 1 := rfl
theorem sh4 (n : Nat) : n + 4 = (n + 3) + 1 := rfl
theorem sh5 (n : Nat) : n + 5 = (n + 4) + 1 := rfl
theorem sh6 (n : Nat) : n + 6 = (n + 5) + 1 := rfl
theorem sh7 (n : Nat) : n + 7 = (n + 6) + 1 := rfl
theorem sh8 (n : Nat) : n + 8 = (n + 7) + 1 := rfl
theorem sh9 (n : Nat) : n + 9 = (n + 8) + 1 := rfl
theorem sh11 (n : Nat) : n + 11 = (n + 10) + 1 := rfl
theorem sh12 (n : Nat) : n + 12 = (n + 11) + 1 := rfl

/-! ## One step of the expression grammar on a number token followed by a
comma: the exact chain `expression -> assignment -> ... -> primary`. -/

section ExprStep

variable {tokens : List Token} {c : Nat}

theorem primary_num (g : Nat) (hc : tokens[c]? = some numTok1) :
    Parser.primary (g+1) ⟨tokens, c⟩ =
      .ok (.Literal (some (.Number 1))) ⟨tokens, c+1⟩ := by
  rw [Parser.primary.eq_2]
  simp [PM_bind_app, PM_pure_app, PM_ite_app,
    match_token_miss .False _ hc (by simp [numTok1]),
    match_token_miss .True _ hc (by simp [numTok1]),
    match_token_miss .Nil _ hc (by simp [numTok1]),
    match_token_hit .Number _ hc (by simp [numTok1]) (by simp),
    match_token_nil, Parser.previous, hc, numTok1]

theorem call_loop_comma (h : Nat) (e : Expr) (hn : tokens[c]? = some (tk .Comma)) :
    Parser.call_loop (h+1) e ⟨tokens, c⟩ = .ok e ⟨tokens, c⟩ := by
  rw [Parser.call_loop.eq_2]
  simp [PM_bind_app, PM_pure_app, PM_ite_app,
    match_token_miss .LeftParen _ hn (by simp [tk]), match_token_nil]

theorem call_num (g : Nat) (hc : tokens[c]? = some numTok1)
    (hn : tokens[c+1]? = some (tk .Comma)) :
    Parser.call (g+2) ⟨tokens, c⟩ =
      .ok (.Literal (some (.Number 1))) ⟨tokens, c+1⟩ := by
  rw [sh2, Parser.call.eq_2]
  simp [PM_bind_app, PM_pure_app, primary_num g hc, call_loop_comma g _ hn]

theorem unary_num (g : Nat) (hc : tokens[c]? = some numTok1)
    (hn : tokens[c+1]? = some (tk .Comma)) :
    Parser.unary (g+3) ⟨tokens, c⟩ =
      .ok (.Literal (some (.Number 1))) ⟨tokens, c+1⟩ := by
  rw [sh3, Parser.unary.eq_2]
  simp [PM_bind_app, PM_pure_app, PM_ite_app,
    match_token_miss .Bang _ hc (by simp [numTok1]),
    match_token_miss .Minus _ hc (by simp [numTok1]),
    match_token_nil, call_num g hc hn]

theorem factor_loop_comma (h : Nat) (e : Expr) (hn : tokens[c]? = some (tk .Comma)) :
    Parser.factor_loop (h+1) e ⟨tokens, c⟩ = .ok e ⟨tokens, c⟩ := by
  rw [Parser.factor_loop.eq_2]
  simp [PM_bind_app, PM_pure_app, PM_ite_app,
    match_token_miss .Slash _ hn (by simp [tk]),
    match_token_miss .Star _ hn (by simp [tk]), match_token_nil]

theorem factor_num (g : Nat) (hc : tokens[c]? = some numTok1)
    (hn : tokens[c+1]? = some (tk .Comma)) :
    Parser.factor (g+4) ⟨tokens, c⟩ =
      .ok (.Literal (some (.Number 1))) ⟨tokens, c+1⟩ := by
  rw [sh4, Parser.factor.eq_2]
  simp [PM_bind_app, PM_pure_app, unary_num g hc hn, factor_loop_comma _ _ hn]

theorem term_loop_comma (h : Nat) (e : Expr) (hn : tokens[c]? = some (tk .Comma)) :
    Parser.term_loop (h+1) e ⟨tokens, c⟩ = .ok e ⟨tokens, c⟩ := by
  rw [Parser.term_loop.eq_2]
  simp [PM_bind_app, PM_pure_app, PM_ite_app,
    match_token_miss .Minus _ hn (by simp [tk]),
    match_token_miss .Plus _ hn (by simp [tk]), match_token_nil]

theorem term_num (g : Nat) (hc : tokens[c]? = some numTok1)
    (hn : tokens[c+1]? = some (tk .Comma)) :
    Parser.term (g+5) ⟨tokens, c⟩ =
      .ok (.Literal (some (.Number 1))) ⟨tokens, c+1⟩ := by
  rw [sh5, Parser.term.eq_2]
  simp [PM_bind_app, PM_pure_app, factor_num g hc hn, term_loop_comma _ _ hn]

theorem comparison_loop_comma (h : Nat) (e : Expr)
    (hn : tokens[c]? = some (tk .Comma)) :
    Parser.comparison_loop (h+1) e ⟨tokens, c⟩ = .ok e ⟨tokens, c⟩ := by
  rw [Parser.comparison_loop.eq_2]
  simp [PM_bind_app, PM_pure_app, PM_ite_app,
    match_token_miss .Greater _ hn (by simp [tk]),
    match_token_miss .GreaterEqual _ hn (by simp [tk]),
    match_token_miss .Less _ hn (by simp [tk]),
    match_token_miss .LessEqual _ hn (by simp [tk]), match_token_nil]

theorem comparison_num (g : Nat) (hc : tokens[c]? = some numTok1)
    (hn : tokens[c+1]? = some (tk .Comma)) :
    Parser.comparison (g+6) ⟨tokens, c⟩ =
      .ok (.Literal (some (.Number 1))) ⟨tokens, c+1⟩ := by
  rw [sh6, Parser.comparison.eq_2]
  simp [PM_bind_app, PM_pure_app, term_num g hc hn, comparison_loop_comma _ _ hn]

theorem equality_loop_comma (h : Nat) (e : Expr)
    (hn : tokens[c]? = some (tk .Comma)) :
    Parser.equality_loop (h+1) e ⟨tokens, c⟩ = .ok e ⟨tokens, c⟩ := by
  rw [Parser.equality_loop.eq_2]
  simp [PM_bind_app, PM_pure_app, PM_ite_app,
    match_token_miss .BangEqual _ hn (by simp [tk]),
    match_token_miss .EqualEqual _ hn (by simp [tk]), match_token_nil]

theorem equality_num (g : Nat) (hc : tokens[c]? = some numTok1)
    (hn : tokens[c+1]? = some (tk .Comma)) :
    Parser.equality (g+7) ⟨tokens, c⟩ =
      .ok (.Literal (some (.Number 1))) ⟨tokens, c+1⟩ := by
  rw [sh7, Parser.equality.eq_2]
  simp [PM_bind_app, PM_pure_app, comparison_num g hc hn, equality_loop_comma _ _ hn]

theorem and_loop_comma (h : Nat) (e : Expr) (hn : tokens[c]? = some (tk .Comma)) :
    Parser.and_loop (h+1) e ⟨tokens, c⟩ = .ok e ⟨tokens, c⟩ := by
  rw [Parser.and_loop.eq_2]
  simp [PM_bind_app, PM_pure_app, PM_ite_app,
    match_token_miss .And _ hn (by simp [tk]), match_token_nil]

theorem and_num (g : Nat) (hc : tokens[c]? = some numTok1)
    (hn : tokens[c+1]? = some (tk .Comma)) :
    Parser.and (g+8) ⟨tokens, c⟩ =
      .ok (.Literal (some (.Number 1))) ⟨tokens, c+1⟩ := by
  rw [sh8, Parser.and.eq_2]
  simp [PM_bind_app, PM_pure_app, equality_num g hc hn, and_loop_comma _ _ hn]

theorem or_loop_comma (h : Nat) (e : Expr) (hn : tokens[c]? = some (tk .Comma)) :
    Parser.or_loop (h+1) e ⟨tokens, c⟩ = .ok e ⟨tokens, c⟩ := by
  rw [Parser.or_loop.eq_2]
  simp [PM_bind_app, PM_pure_app, PM_ite_app,
    match_token_miss .Or _ hn (by simp [tk]), match_token_nil]

theorem or_num (g : Nat) (hc : tokens[c]? = some numTok1)
    (hn : tokens[c+1]? = some (tk .Comma)) :
    Parser.or (g+9) ⟨tokens, c⟩ =
      .ok (.Literal (some (.Number 1))) ⟨tokens, c+1⟩ := by
  rw [sh9, Parser.or.eq_2]
  simp [PM_bind_app, PM_pure_app, and_num g hc hn, or_loop_comma _ _ hn]

theorem assignment_num (g : Nat) (hc : tokens[c]? = some numTok1)
    (hn : tokens[c+1]? = some (tk .Comma)) :
    Parser.assignment (g+11) ⟨tokens, c⟩ =
      .ok (.Literal (some (.Number 1))) ⟨tokens, c+1⟩ := by
  rw [sh11, Parser.assignment.eq_2]
  have hor : Parser.or (g+10) ⟨tokens, c⟩ =
      .ok (.Literal (some (.Number 1))) ⟨tokens, c+1⟩ := or_num (g+1) hc hn
  simp [PM_bind_app, PM_pure_app, PM_ite_app, hor,
    match_token_miss .Equal _ hn (by simp [tk]), match_token_nil]

theorem expr_step (g : Nat) (hc : tokens[c]? = some numTok1)
    (hn : tokens[c+1]? = some (tk .Comma)) :
    Parser.expression (g+12) ⟨tokens, c⟩ =
      .ok (.Literal (some (.Number 1))) ⟨tokens, c+1⟩ := by
  rw [sh12, Parser.expression.eq_2]
  exact assignment_num g hc hn

end ExprStep

theorem args_march (k : Nat) : ∀ (f : Nat) (pre : List Token) (args : List Expr),
    args.length + k = 255 →
    Parser.arguments_loop (k + (f+13)) args
      ⟨pre ++ ((List.replicate k pairTok).flatten ++ argTail), pre.length⟩ =
      .err (.ParseError numTok1 (pre.length + 2*k)
          "Can't have more than 255 arguments.")
        ⟨pre ++ ((List.replicate k pairTok).flatten ++ argTail), pre.length + 2*k⟩ := by
  induction k with
  | zero =>
      intro f pre args hlen
      have hfu : 0 + (f+13) = (f+12)+1 := by omega
      rw [hfu]
      have ht : (pre ++ ((List.replicate 0 pairTok).flatten ++ argTail))[pre.length]? =
          some numTok1 := by
        rw [List.getElem?_append_right (le_refl _)]
        simp [argTail]
      rw [arguments_loop_cap _ args (by omega) ht]
      simp
  | succ k ih =>
      intro f pre args hlen
      have hfu : (k+1) + (f+13) = (k + (f+13)) + 1 := by omega
      rw [hfu, Parser.arguments_loop.eq_2]
      have hstream : pre ++ ((List.replicate (k+1) pairTok).flatten ++ argTail) =
          pre ++ (pairTok ++ ((List.replicate k pairTok).flatten ++ argTail)) := by
        simp [List.replicate_succ, List.append_assoc]
      rw [hstream]
      have hc : (pre ++ (pairTok ++ ((List.replicate k pairTok).flatten ++ argTail)))[pre.length]? =
          some numTok1 := by
        rw [List.getElem?_append_right (le_refl _)]
        simp [pairTok]
      have hn : (pre ++ (pairTok ++ ((List.replicate k pairTok).flatten ++ argTail)))[pre.length + 1]? =
          some (tk .Comma) := by
        rw [List.getElem?_append_right (by omega : pre.length ≤ pre.length + 1)]
        simp [pairTok]
      have hexpr : Parser.expression (k + (f+13))
          ⟨pre ++ (pairTok ++ ((List.replicate k pairTok).flatten ++ argTail)), pre.length⟩ =
          .ok (.Literal (some (.Number 1)))
            ⟨pre ++ (pairTok ++ ((List.replicate k pairTok).flatten ++ argTail)), pre.length + 1⟩ := by
        have hg : k + (f+13) = (k+f+1) + 12 := by omega
        rw [hg]
        exact expr_step _ hc hn
      have hnot : ¬ (args.length ≥ 255) := by omega
      simp only [hnot, if_false, PM_bind_app, hexpr,
        match_token_hit .Comma [] hn rfl (by simp), if_true, PM_pure_app]
      have hre : pre ++ (pairTok ++ ((List.replicate k pairTok).flatten ++ argTail)) =
          (pre ++ pairTok) ++ ((List.replicate k pairTok).flatten ++ argTail) :=
        (List.append_assoc pre pairTok _).symm
      have hlen2 : pre.length + 1 + 1 = (pre ++ pairTok).length := by simp [pairTok]
      have harith : pre.length + 2*(k+1) = (pre ++ pairTok).length + 2*k := by
        simp [pairTok]; omega
      rw [hre, hlen2, harith]
      exact ih f (pre ++ pairTok) (args ++ [.Literal (some (.Number 1))]) (by simp; omega)

theorem params_march (k : Nat) : ∀ (f : Nat) (pre : List Token) (params : List Token),
    params.length + k = 255 →
    Parser.params_loop (k + (f+1)) params
      ⟨pre ++ ((List.replicate k ppairTok).flatten ++ pTail), pre.length⟩ =
      .err (.ParseError aTok (pre.length + 2*k)
          "Can't have more than 255 arguments.")
        ⟨pre ++ ((List.replicate k ppairTok).flatten ++ pTail), pre.length + 2*k⟩ := by
  induction k with
  | zero =>
      intro f pre params hlen
      have hfu : 0 + (f+1) = f+1 := by omega
      rw [hfu]
      have ht : (pre ++ ((List.replicate 0 ppairTok).flatten ++ pTail))[pre.length]? =
          some aTok := by
        rw [List.getElem?_append_right (le_refl _)]
        simp [pTail]
      rw [params_loop_cap _ params (by omega) ht]
      simp
  | succ k ih =>
      intro f pre params hlen
      have hfu : (k+1) + (f+1) = (k + (f+1)) + 1 := by omega
      rw [hfu, Parser.params_loop.eq_2]
      have hstream : pre ++ ((List.replicate (k+1) ppairTok).flatten ++ pTail) =
          pre ++ (ppairTok ++ ((List.replicate k ppairTok).flatten ++ pTail)) := by
        simp [List.replicate_succ, List.append_assoc]
      rw [hstream]
      have hc : (pre ++ (ppairTok ++ ((List.replicate k ppairTok).flatten ++ pTail)))[pre.length]? =
          some aTok := by
        rw [List.getElem?_append_right (le_refl _)]
        simp [ppairTok]
      have hn : (pre ++ (ppairTok ++ ((List.replicate k ppairTok).flatten ++ pTail)))[pre.length + 1]? =
          some (tk .Comma) := by
        rw [List.getElem?_append_right (by omega : pre.length ≤ pre.length + 1)]
        simp [ppairTok]
      have hnot : ¬ (params.length ≥ 255) := by omega
      simp only [hnot, if_false, PM_bind_app,
        consume_hit .Identifier "Expect parameter name." hc rfl (by simp),
        match_token_hit .Comma [] hn rfl (by simp), if_true, PM_pure_app]
      have hre : pre ++ (ppairTok ++ ((List.replicate k ppairTok).flatten ++ pTail)) =
          (pre ++ ppairTok) ++ ((List.replicate k ppairTok).flatten ++ pTail) :=
        (List.append_assoc pre ppairTok _).symm
      have hlen2 : pre.length + 1 + 1 = (pre ++ ppairTok).length := by simp [ppairTok]
      have harith : pre.length + 2*(k+1) = (pre ++ ppairTok).length + 2*k := by
        simp [ppairTok]; omega
      rw [hre, hlen2, harith]
      exact ih f (pre ++ ppairTok) (params ++ [aTok]) (by simp; omega)

theorem flatten_replicate_len (l : List Token) (k : Nat) :
    ((List.replicate k l).flatten).length = k * l.length := by
  induction k with
  | zero => simp
  | succ k ih => simp [List.replicate_succ, ih]; ring

theorem c8_tokens_split :
    c8_tokens = numTok1 :: tk .Comma ::
      ((List.replicate 254 pairTok).flatten ++ argTail) := by
  rw [c8_tokens, show (255:Nat) = 254+1 from rfl, List.replicate_succ]
  simp only [List.flatten_cons, pairTok, List.cons_append, List.nil_append,
    List.append_assoc]

theorem c8_tokens_zero : c8_tokens[0]? = some numTok1 := by
  rw [c8_tokens_split]
  simp only [List.getElem?_cons_zero]

/-- Collapse the scope-test conditional after a failed `check`. -/
theorem if_bang_false {α : Type} (x y : α) : (if (!false) = true then x else y) = x := rfl

theorem c8_finish_call_run :
    Parser.finish_call 269 (.Literal (some .Nil)) ⟨c8_tokens, 0⟩ =
      .err (.ParseError numTok1 510 "Can't have more than 255 arguments.")
        ⟨c8_tokens, 510⟩ := by
  show Parser.finish_call (268+1) (.Literal (some .Nil)) ⟨c8_tokens, 0⟩ = _
  rw [Parser.finish_call.eq_2]
  have hm := args_march 255 0 [] [] (by rfl)
  have e1 : (255 + (0+13) : Nat) = 268 := rfl
  have e4 : ([] : List Token) ++ ((List.replicate 255 pairTok).flatten ++ argTail) =
      c8_tokens := by
    rw [c8_tokens, List.nil_append]
  rw [e1, e4] at hm
  simp only [List.length_nil] at hm
  have e3 : (0 + 2*255 : Nat) = 510 := rfl
  rw [e3] at hm
  simp only [PM_bind_app, check_at .RightParen c8_tokens_zero,
    show decide (numTok1.token_type = TokenType.RightParen) = false from rfl,
    if_bang_false, hm]

theorem c8_tokens_rparen : c8_tokens[511]? = some (tk .RightParen) := by
  have hlen : ((List.replicate 255 pairTok).flatten).length = 510 := by
    rw [flatten_replicate_len]; rfl
  rw [c8_tokens, List.getElem?_append_right (by rw [hlen]; omega), hlen]
  simp only [show (511 - 510 : Nat) = 1 from rfl, argTail]
  rw [show (1:Nat) = 0+1 from rfl, List.getElem?_cons_succ]
  simp only [List.getElem?_cons_zero]

theorem c8p_tokens_split :
    c8p_tokens = ⟨.Identifier, "f", none, 0⟩ :: tk .LeftParen :: aTok :: tk .Comma ::
      ((List.replicate 254 ppairTok).flatten ++ pTail) := by
  rw [c8p_tokens, show (255:Nat) = 254+1 from rfl, List.replicate_succ]
  simp only [List.flatten_cons, ppairTok, List.cons_append, List.nil_append,
    List.append_assoc]

theorem c8p_tokens_zero : c8p_tokens[0]? = some (⟨.Identifier, "f", none, 0⟩ : Token) := by
  rw [c8p_tokens_split]
  simp only [List.getElem?_cons_zero]

theorem c8p_tokens_one : c8p_tokens[1]? = some (tk .LeftParen) := by
  rw [c8p_tokens_split, show (1:Nat) = 0+1 from rfl, List.getElem?_cons_succ]
  simp only [List.getElem?_cons_zero]

theorem c8p_tokens_two : c8p_tokens[2]? = some aTok := by
  rw [c8p_tokens_split, show (2:Nat) = 1+1 from rfl, List.getElem?_cons_succ,
    show (1:Nat) = 0+1 from rfl, List.getElem?_cons_succ]
  simp only [List.getElem?_cons_zero]

theorem c8_fun_declaration_run :
    Parser.fun_declaration 257 "function" ⟨c8p_tokens, 0⟩ =
      .err (.ParseError aTok 512 "Can't have more than 255 arguments.")
        ⟨c8p_tokens, 512⟩ := by
  show Parser.fun_declaration (256+1) "function" ⟨c8p_tokens, 0⟩ = _
  rw [Parser.fun_declaration.eq_2]
  have hm := params_march 255 0 [⟨.Identifier, "f", none, 0⟩, tk .LeftParen] [] (by rfl)
  have e1 : (255 + (0+1) : Nat) = 256 := rfl
  have e4 : ([⟨.Identifier, "f", none, 0⟩, tk .LeftParen] : List Token) ++
      ((List.replicate 255 ppairTok).flatten ++ pTail) = c8p_tokens := by
    rw [c8p_tokens]
    rfl
  rw [e1, e4] at hm
  have e2 : ([⟨.Identifier, "f", none, 0⟩, tk .LeftParen] : List Token).length = 2 := rfl
  rw [e2] at hm
  have e3 : (2 + 2*255 : Nat) = 512 := rfl
  rw [e3] at hm
  simp only [PM_bind_app, PM_pure_app,
    consume_hit .Identifier _ c8p_tokens_zero rfl (by decide),
    consume_hit .LeftParen _ c8p_tokens_one rfl (by decide),
    check_at .RightParen c8p_tokens_two,
    show decide (aTok.token_type = TokenType.RightParen) = false from rfl,
    if_bang_false, hm]

theorem c8p_tokens_rparen : c8p_tokens[513]? = some (tk .RightParen) := by
  have hlen : ((List.replicate 255 ppairTok).flatten).length = 510 := by
    rw [flatten_replicate_len]; rfl
  rw [c8p_tokens, show (513:Nat) = 512+1 from rfl, List.getElem?_cons_succ,
    show (512:Nat) = 511+1 from rfl, List.getElem?_cons_succ,
    List.getElem?_append_right (by rw [hlen]; omega), hlen]
  simp only [show (511 - 510 : Nat) = 1 from rfl, pTail]
  rw [show (1:Nat) = 0+1 from rfl, List.getElem?_cons_succ]
  simp only [List.getElem?_cons_zero]

/-! ## The claims -/

/-- Claim C1: executing a block must restore the previously-current scope
on every exit path, so a shadowing `var` inside a block leaves the outer
binding and its value visible again after the block exits.  On the code,
running `var a = 1; { var a = 2; } print a;` leaves the *block* scope as
the interpreter's current environment (the final state's `environment`
field is the inner scope holding `a = 2`, whose enclosing link is the
snapshot of the pre-block scope), and the program prints `2`, not `1`:
the current-scope field is not restored. -/
theorem c1_block_scope_not_restored :
    interpret 50 c1_program Interpreter.new =
      .ok () ⟨.mk none [("clock", .Native)],
              .mk (some c1_outer_env) [("a", .Number 2)], ["2"]⟩
    ∧ Environment.mk (some c1_outer_env) [("a", .Number 2)] ≠ c1_outer_env :=
  ⟨rfl, fun h => Option.noConfusion (congrArg Environment.enclosing h)⟩

/-- Claim C2: evaluating `l == r` should succeed for every pair of
runtime values, returning `Bool true` exactly on the cross-type equality
rule.  On the code, two `Str` operands fall into the `(Str, Str)` match
arm of `visit_binary_expr`, whose only non-error case is `Plus`, so
`"a" == "a"` evaluates to `Err(InterpreterError)` — even though the
interpreter's own `is_equal` (unreachable for string pairs) would have
returned `Bool true`. -/
theorem c2_string_equality_is_interpreter_error :
    visit_binary_values ⟨.EqualEqual, "==", none, 0⟩ (.Str "a") (.Str "a") =
      .error .InterpreterError
    ∧ evaluate 10 (.Binary (.Literal (some (.Str "a"))) ⟨.EqualEqual, "==", none, 0⟩
        (.Literal (some (.Str "a")))) Interpreter.new =
      .err .InterpreterError Interpreter.new
    ∧ is_equal (.Str "a") (.Str "a") = .ok (.Bool true) :=
  ⟨rfl, rfl, rfl⟩

/-- Claim C3: a function declaration should construct a closure that
captures the scope active at the declaration's execution.  On the code,
`visit_function_stmt` builds the function value from the declaration
alone (`RloxFunction::new(stmt.clone())`), so for every interpreter
state the defined value is the same `Func ⟨name, params, body⟩`,
containing no environment: the defining scope is not captured, and later
mutations of a captured variable cannot be observed through it. -/
theorem c3_function_closure_captures_no_environment
    (fuel : Nat) (name : Token) (params : List Token) (body : List Stmt)
    (s : InterpState) :
    execute (fuel+1) (.Function name params body) s =
      .ok () { s with environment :=
        s.environment.define name.lexeme (.Func ⟨name, params, body⟩) } := rfl

/-- Claim C4: a callee that is a `Func` or a `Native` should be invoked.
On the code, `visit_call_expr` handles only `Value::Func`; any other
callee — including `Value::Native` — takes the `else` branch and fails
with `InterpreterError`, so the pre-registered `clock` is not callable:
`clock();` evaluates to an error and leaves the state unchanged. -/
theorem c4_native_callee_rejected :
    interpret 50 c4_program Interpreter.new = .err .InterpreterError Interpreter.new :=
  rfl

/-- Claim C5: the `for` desugaring should replace an absent condition
with the literal `true`.  On the code, `for_statement` substitutes
`Literal::False`, so `for (;;) print 1;` parses to a `while` loop whose
condition is the literal `false` — the loop never runs instead of
looping forever. -/
theorem c5_for_missing_condition_becomes_false :
    Parser.statement 50 ⟨c5_tokens, 0⟩ =
      .ok (.While (.Literal (some .False)) (.Print (.Literal (some (.Number 1)))))
        ⟨c5_tokens, 8⟩ := rfl

/-- Claim C6: a prefix `!` or `-` should produce a `Unary` node over the
recursively parsed operand.  On the code, `Parser::unary` constructs the
`Unary` expression as a bare statement and discards it (no `return`),
then falls through to `self.call()` with the operator and operand
already consumed; parsing `!true` therefore yields a `ParseError`
("failed to parse" at the end-of-input token) instead of a `Unary`
node. -/
theorem c6_unary_expression_discarded :
    Parser.expression 50 ⟨c6_tokens, 0⟩ =
      .err (.ParseError (tk .Eof) 2 "failed to parse") ⟨c6_tokens, 2⟩ := rfl

/-- Claim C7: `l != r` should return the logical negation of `l == r`.
On the code, every `BangEqual` arm of `visit_binary_expr` computes the
same un-negated comparison as the `EqualEqual` arm (`Bool(l.eq(&r))`
for numbers, `is_equal` un-negated in the catch-all, the same error for
strings), so `!=` always returns exactly what `==` returns — never its
negation.  In particular `1 != 2` evaluates to `Bool false`. -/
theorem c7_bang_equal_computes_same_as_equal
    (left right : Value) (t1 t2 : Token)
    (h1 : t1.token_type = .BangEqual) (h2 : t2.token_type = .EqualEqual) :
    visit_binary_values t1 left right = visit_binary_values t2 left right := by
  cases left <;> cases right <;> simp [visit_binary_values, h1, h2]

/-- Claim C7, witness: the theorem applied at `1 != 2` versus `1 == 2`
(both return `Bool false`). -/
theorem c7_bang_equal_witness :
    visit_binary_values ⟨.BangEqual, "!=", none, 0⟩ (.Number 1) (.Number 2) =
      visit_binary_values ⟨.EqualEqual, "==", none, 0⟩ (.Number 1) (.Number 2) :=
  c7_bang_equal_computes_same_as_equal (.Number 1) (.Number 2)
    ⟨.BangEqual, "!=", none, 0⟩ ⟨.EqualEqual, "==", none, 0⟩ rfl rfl

/-- Claim C8, counterexample: on a 256-argument list the parser does not
consume the malformed list up to and including its closing right
parenthesis.  `finish_call` returns the over-255 `ParseError` with the
cursor left at position 510 (the 256th argument), while the closing
right parenthesis sits unconsumed at position 511. -/
theorem c8_cap_counterexample :
    Parser.finish_call 269 (.Literal (some .Nil)) ⟨c8_tokens, 0⟩ =
      .err (.ParseError numTok1 510 "Can't have more than 255 arguments.")
        ⟨c8_tokens, 510⟩
    ∧ c8_tokens[511]? = some (tk .RightParen) :=
  ⟨c8_finish_call_run, c8_tokens_rparen⟩

/-- Claim C8, amended: exceeding the 255-entry cap on an argument or
parameter list is a reported `ParseError` (a returned error value, not a
panic), but the parser abandons the list immediately at the 256th
entry: `finish_call` and `fun_declaration` return the error with the
cursor at that entry, leaving the rest of the list and its closing right
parenthesis unconsumed (recovery is deferred to `declaration`'s
`synchronize`). -/
theorem c8_cap_reports_error_and_abandons_list :
    (Parser.finish_call 269 (.Literal (some .Nil)) ⟨c8_tokens, 0⟩ =
      .err (.ParseError numTok1 510 "Can't have more than 255 arguments.")
        ⟨c8_tokens, 510⟩)
    ∧ (Parser.fun_declaration 257 "function" ⟨c8p_tokens, 0⟩ =
      .err (.ParseError aTok 512 "Can't have more than 255 arguments.")
        ⟨c8p_tokens, 512⟩)
    ∧ c8_tokens[511]? = some (tk .RightParen)
    ∧ c8p_tokens[513]? = some (tk .RightParen) :=
  ⟨c8_finish_call_run, c8_fun_declaration_run, c8_tokens_rparen, c8p_tokens_rparen⟩

/-- Claim C9: `Environment.get` returns the binding from the innermost
scope of the chain that defines the identifier and fails with a
`RuntimeError` carrying the identifier text when no scope defines it;
`Environment.assign` rebinds the identifier in the first
(innermost-outward) scope that already defines it, fails with a
`RuntimeError` when none does, and never creates a binding in any scope
(the set of names defined anywhere in the chain is unchanged by a
successful assignment). -/
theorem c9_environment_get_assign_chain (env : Environment) (tok : Token) (v : Value) :
    (env.get tok =
      (match chainLookup env tok.lexeme with
       | some w => Except.ok w
       | none => Except.error (.RuntimeError tok.lexeme
           ("Undefined variable " ++ tok.lexeme ++ "."))))
    ∧ (env.assign tok v =
        (if chainDefines env tok.lexeme then
          Except.ok (rebindFirst env tok.lexeme v)
        else
          Except.error (.RuntimeError tok.lexeme
            ("Undefined variable " ++ "'" ++ tok.lexeme ++ "'" ++ "."))))
    ∧ (∀ name, chainDefines (rebindFirst env tok.lexeme v) name = chainDefines env name) :=
  ⟨get_eq_chainLookup env tok, assign_eq_rebindFirst env tok v,
   fun name => chainDefines_rebindFirst env tok.lexeme name v⟩

/-- Claim C10: evaluating a `Literal` node with an absent payload does
not produce an error through the fallible channel — the unconditional
unwrap aborts the process (panic); with a present payload evaluation is
total and never an error. -/
theorem c10_literal_absent_payload_panics :
    visit_literal_expr none = .panicked "Valid literal expression"
    ∧ (∀ lit, visit_literal_expr (some lit) = .ok (.ok (literalValue lit)))
    ∧ (∀ (fuel : Nat) (s : InterpState),
        evaluate (fuel+1) (.Literal none) s = .panicked "Valid literal expression") :=
  ⟨rfl, fun _ => rfl, fun _ _ => rfl⟩
